import Mathlib

/-!
Verification development for the `pickaxe_generic` entity store and metadata
pipeline (`network.py`, `metadata.py`, `containers.py`).

The Python code is shallowly embedded: Python `dict`s become association
lists with unique keys (first-match lookup, in-place replace on update,
append on fresh insert — matching CPython's insertion-ordered dicts),
raised exceptions become `Except String` results, and the mutable
`ChemNetworkBin` object becomes a state record threaded through the
operations.
-/

/-! ## Association-list dictionaries (embedding of Python `dict`) -/

/-- First-match lookup, the embedding of `d[k]` / `k in d` for a Python dict
(whose keys are unique, making first-match exact). -/
def alookup {K V : Type} [DecidableEq K] : List (K × V) → K → Option V
  | [], _ => none
  | (k', v) :: t, k => if k' = k then some v else alookup t k

/-- Embedding of `d[k] = v`: replace the first binding of `k` in place,
or append a fresh binding at the end (CPython dict semantics). -/
def dset {K V : Type} [DecidableEq K] : List (K × V) → K → V → List (K × V)
  | [], k, v => [(k, v)]
  | (k', v') :: t, k, v => if k' = k then (k, v) :: t else (k', v') :: dset t k v

/-- Embedding of `d.update(e)`: set each binding of `e` into `d`, in order. -/
def dupdate {K V : Type} [DecidableEq K] (d e : List (K × V)) : List (K × V) :=
  e.foldl (fun acc p => dset acc p.1 p.2) d

/-! ## Entity store (`network.py`)

Molecules and operators are opaque capability-bearing values: the store
only reads `uid` and, for operators, the arity (`len(op)`) and the
`compat(mol, argnum)` predicate. -/

structure Mol where
  uid : Nat
deriving DecidableEq, Repr

structure Op where
  uid : Nat
  arity : Nat
  compat : Mol → Nat → Bool

/-- `Reaction` dataclass (network.py lines 23-27). -/
structure Reaction where
  operator : Nat
  reactants : List Nat
  products : List Nat
deriving DecidableEq, Repr

/-- Python metadata values are dynamic; `none` stands for Python `None`. -/
abbrev PyVal := Option Nat

/-- A per-entity metadata dict (`dict[Hashable, Any]` with `Nat` keys). -/
abbrev MetaDict := List (Nat × PyVal)

/-- State record for `ChemNetworkBin` (network.py lines 109-144).  The
`_mol_query`/`_op_query`/`_rxn_query` caches are views of the lists and maps
with no observable state of their own, so they are not modelled. -/
structure ChemNetworkBin where
  mol_list : List Mol
  op_list : List Op
  rxn_list : List Reaction
  mol_map : List (Nat × Nat)
  op_map : List (Nat × Nat)
  rxn_map : List (Reaction × Nat)
  mol_meta : List MetaDict
  op_meta : List MetaDict
  rxn_meta : List MetaDict
  mol_producers : List (Nat × List Nat)
  mol_consumers : List (Nat × List Nat)
  compat_table : List (List (List Nat))

/-- `ChemNetworkBin.__init__` (network.py lines 122-144): every registry,
map and table starts empty; in particular `_mol_producers` and
`_mol_consumers` start as empty mappings. -/
def emptyNetwork : ChemNetworkBin :=
  ⟨[], [], [], [], [], [], [], [], [], [], [], []⟩

/-- The compatibility row built by `add_op` (network.py lines 249-260):
for each `argnum in range(len(op))`, the molecule indices whose molecule
satisfies `op.compat(mol, argnum)`, in index order. -/
def compatRow (mol_list : List Mol) (op : Op) : List (List Nat) :=
  (List.range op.arity).map fun argnum =>
    mol_list.enum.filterMap fun p => if op.compat p.2 argnum then some p.1 else none

/-- The compatibility-row update performed by `add_mol` (network.py lines
222-225): `for argnum in range(len(op)): if op.compat(mol, argnum):
table[i][argnum].append(mol_index)`.  Every row stored in `_compat_table`
has length `op.arity` (it is built that way by `add_op`), under which this
rebuild-by-argnum is the per-slot in-place append of the source. -/
def addMolToRow (op : Op) (mol : Mol) (mol_index : Nat) (row : List (List Nat)) :
    List (List Nat) :=
  (List.range op.arity).map fun argnum =>
    if op.compat mol argnum then row.getD argnum [] ++ [mol_index]
    else row.getD argnum []

/-- `ChemNetworkBin.add_mol` (network.py lines 200-227). -/
def add_mol (s : ChemNetworkBin) (mol : Mol) (meta : Option MetaDict) :
    Nat × ChemNetworkBin :=
  match alookup s.mol_map mol.uid with
  | some i => (i, s)
  | none =>
    let mol_index := s.mol_list.length
    (mol_index,
      { s with
        mol_list := s.mol_list ++ [mol]
        mol_map := s.mol_map ++ [(mol.uid, mol_index)]
        mol_meta := s.mol_meta ++ [meta.getD []]
        compat_table :=
          List.zipWith (fun op row => addMolToRow op mol mol_index row)
            s.op_list s.compat_table })

/-- `ChemNetworkBin.add_op` (network.py lines 229-262). -/
def add_op (s : ChemNetworkBin) (op : Op) (meta : Option MetaDict) :
    Nat × ChemNetworkBin :=
  match alookup s.op_map op.uid with
  | some i => (i, s)
  | none =>
    let op_index := s.op_list.length
    (op_index,
      { s with
        op_list := s.op_list ++ [op]
        op_map := s.op_map ++ [(op.uid, op_index)]
        op_meta := s.op_meta ++ [meta.getD []]
        compat_table := s.compat_table ++ [compatRow s.mol_list op] })

/-- `ChemNetworkBin.add_rxn` (network.py lines 264-301).  Two source
peculiarities are embedded exactly as written:
* lines 278-286 merely *construct* `IndexError(...)` values without
  `raise`, so out-of-range operator/reactant/product handles have no
  observable effect and are not modelled as failures;
* `max(max(reactants), max(products))` on line 278 does raise `ValueError`
  when either sequence is empty;
* lines 296-299 append the reaction metadata to `self._op_meta`, not
  `self._rxn_meta`. -/
def add_rxn (s : ChemNetworkBin) (op : Nat) (reactants products : List Nat)
    (meta : Option MetaDict) : Except String (Nat × ChemNetworkBin) :=
  let rxn : Reaction := ⟨op, reactants, products⟩
  match alookup s.rxn_map rxn with
  | some i => .ok (i, s)
  | none =>
    if reactants.isEmpty || products.isEmpty then
      .error "ValueError"
    else
      let rxn_index := s.rxn_list.length
      .ok (rxn_index,
        { s with
          rxn_list := s.rxn_list ++ [rxn]
          rxn_map := s.rxn_map ++ [(rxn, rxn_index)]
          op_meta := s.op_meta ++ [meta.getD []] })

/-- `ChemNetworkBin.consumers` for an integer argument (network.py lines
182-186): a plain mapping lookup, `KeyError` when the molecule index has no
entry. -/
def consumers (s : ChemNetworkBin) (mol : Nat) : Except String (List Nat) :=
  match alookup s.mol_consumers mol with
  | some c => .ok c
  | none => .error "KeyError"

/-- `ChemNetworkBin.producers` for an integer argument (network.py lines
191-195). -/
def producers (s : ChemNetworkBin) (mol : Nat) : Except String (List Nat) :=
  match alookup s.mol_producers mol with
  | some c => .ok c
  | none => .error "KeyError"

/-- The shared body of `mol_meta` / `op_meta` / `rxn_meta` (network.py lines
164-177) acting on one metadata table: `value is None` selects the read
path `return table[index][key]`; otherwise `table[index][key] = value`. -/
def meta_access (table : List MetaDict) (index key : Nat) (value : PyVal) :
    Except String (PyVal × List MetaDict) :=
  match value with
  | none =>
    match table[index]? with
    | none => .error "IndexError"
    | some d =>
      match alookup d key with
      | none => .error "KeyError"
      | some v => .ok (v, table)
  | some v =>
    match table[index]? with
    | none => .error "IndexError"
    | some d => .ok (none, table.set index (dset d key (some v)))

/-- `ChemNetworkBin.mol_meta` (network.py lines 164-167). -/
def mol_meta (s : ChemNetworkBin) (index key : Nat) (value : PyVal) :
    Except String (PyVal × ChemNetworkBin) :=
  (meta_access s.mol_meta index key value).map
    fun p => (p.1, { s with mol_meta := p.2 })

/-- `ChemNetworkBin.op_meta` (network.py lines 169-172). -/
def op_meta (s : ChemNetworkBin) (index key : Nat) (value : PyVal) :
    Except String (PyVal × ChemNetworkBin) :=
  (meta_access s.op_meta index key value).map
    fun p => (p.1, { s with op_meta := p.2 })

/-- `ChemNetworkBin.rxn_meta` (network.py lines 174-177). -/
def rxn_meta (s : ChemNetworkBin) (index key : Nat) (value : PyVal) :
    Except String (PyVal × ChemNetworkBin) :=
  (meta_access s.rxn_meta index key value).map
    fun p => (p.1, { s with rxn_meta := p.2 })

/-- One store-mutating call in a molecule/operator insertion sequence. -/
inductive NetIns
  | mol : Mol → NetIns
  | op : Op → NetIns

/-- Apply one insertion to the store (metadata argument `None`). -/
def netStep (s : ChemNetworkBin) : NetIns → ChemNetworkBin
  | .mol m => (add_mol s m none).2
  | .op o => (add_op s o none).2

/-- Run a sequence of `add_mol`/`add_op` calls against the empty store. -/
def runIns (l : List NetIns) : ChemNetworkBin :=
  l.foldl netStep emptyNetwork

/-! ## Metadata pipeline (`metadata.py`)

Metadata values are a type parameter `V`; per-entity value maps use the
association-list dicts above.  Reaction identifiers are
`(operator uid, reactant uids, product uids)` triples, molecule and
operator identifiers are plain uids. -/

/-- Reaction identifier tuple used by `metalib_to_rxn_meta` (metadata.py
lines 431-437). -/
abbrev RxnId := Nat × List Nat × List Nat

/-- `MetaPropertyStateSingleProp` (metadata.py lines 255-261): one key's
handle-to-value map together with the resolver supplied by the calculator
that produced it. -/
structure MetaPropertyStateSingleProp (K V : Type) where
  data : List (K × V)
  resolver : V → V → V

/-- `MetaPropertyStateSingleProp.__or__` (metadata.py lines 263-282). -/
def MetaPropertyStateSingleProp.or {K V : Type} [DecidableEq K]
    (a b : MetaPropertyStateSingleProp K V) : MetaPropertyStateSingleProp K V :=
  if a.data.length = 0 then b
  else if b.data.length = 0 then ⟨a.data, b.resolver⟩
  else
    let common := (a.data.map Prod.fst).filter fun k => (alookup b.data k).isSome
    if common.length = 0 then ⟨dupdate b.data a.data, b.resolver⟩
    else
      let resolved := common.filterMap fun k =>
        match alookup a.data k, alookup b.data k with
        | some x, some y => some (k, a.resolver x y)
        | _, _ => none
      ⟨dupdate (dupdate b.data a.data) resolved, b.resolver⟩

/-- `MetaPropertyState` (metadata.py lines 285-292): three partitioned
per-key maps of single-property states. -/
structure MetaPropertyState (V : Type) where
  mol_info : List (Nat × MetaPropertyStateSingleProp Nat V)
  op_info : List (Nat × MetaPropertyStateSingleProp Nat V)
  rxn_info : List (Nat × MetaPropertyStateSingleProp RxnId V)

/-- The per-partition body of `MetaPropertyState.__or__` (metadata.py lines
295-308, repeated verbatim for the operator and reaction partitions on
lines 309-336). -/
def mergeInfoPart {K V : Type} [DecidableEq K]
    (a b : List (Nat × MetaPropertyStateSingleProp K V)) :
    List (Nat × MetaPropertyStateSingleProp K V) :=
  if a.length = 0 then b
  else if b.length = 0 then a
  else
    let common := (a.map Prod.fst).filter fun k => (alookup b k).isSome
    if common.length = 0 then dupdate a b
    else
      let resolved := common.filterMap fun k =>
        match alookup a k, alookup b k with
        | some x, some y => some (k, x.or y)
        | _, _ => none
      dupdate (dupdate a b) resolved

/-- `MetaPropertyState.__or__` (metadata.py lines 294-338). -/
def MetaPropertyState.or {V : Type} (a b : MetaPropertyState V) :
    MetaPropertyState V :=
  { mol_info := mergeInfoPart a.mol_info b.mol_info
    op_info := mergeInfoPart a.op_info b.op_info
    rxn_info := mergeInfoPart a.rxn_info b.rxn_info }

/-- `KeyOutput` (metadata.py lines 114-118): declared output keys per
partition, as finite sets (Python `frozenset`). -/
structure KeyOutput where
  mol_keys : Finset Nat
  op_keys : Finset Nat
  rxn_keys : Finset Nat
deriving DecidableEq

/-- `KeyOutput.__and__` (metadata.py lines 120-136), embedded with the
comparisons exactly as written in the source: each conflict guard tests
`len(a | b) > len(a) + len(b)`.  The error payload carries the offending
key set `self.keys & other.keys` named by the exception message. -/
def KeyOutput.and (a b : KeyOutput) : Except (String × Finset Nat) KeyOutput :=
  let new_mol_keys := a.mol_keys ∪ b.mol_keys
  if new_mol_keys.card > a.mol_keys.card + b.mol_keys.card then
    .error ("Conflicting molecule metadata key outputs", a.mol_keys ∩ b.mol_keys)
  else
    let new_op_keys := a.op_keys ∪ b.op_keys
    if new_op_keys.card > a.op_keys.card + b.op_keys.card then
      .error ("Conflicting operator metadata key outputs", a.op_keys ∩ b.op_keys)
    else
      let new_rxn_keys := a.rxn_keys ∪ b.rxn_keys
      if new_rxn_keys.card > a.rxn_keys.card + b.rxn_keys.card then
        .error ("Conflicting reaction metadata key outputs", a.rxn_keys ∩ b.rxn_keys)
      else
        .ok ⟨new_mol_keys, new_op_keys, new_rxn_keys⟩

/-- Modelled from the spec: `DataPacket` comes from `datatypes.py`, which is
absent from the sources.  Per the spec's pipeline interface, a packet
carries an index, an opaque item (of which only the identity `uid` is ever
read), and an optional per-entity metadata snapshot. -/
structure DataPacket (V : Type) where
  i : Nat
  uid : Nat
  meta : Option (List (Nat × V))
deriving DecidableEq

/-- Modelled from the spec: `ReactionExplicit` is declared in the source's
`network.py` but its definition is absent from the sources.  Per the spec,
a reaction-view exposes the operator, ordered reactants, ordered products,
and per-entity metadata snapshots (here the reaction's own metadata). -/
structure ReactionExplicit (V : Type) where
  operator : DataPacket V
  reactants : List (DataPacket V)
  products : List (DataPacket V)
  reaction_meta : Option (List (Nat × V))
deriving DecidableEq

/-- A molecule property calculator (`MolPropertyCalc`, metadata.py lines
68-73): its declared key, its resolver, and its compute function, which may
return "absent" (`none`). -/
structure MolPropertyCalc (V : Type) where
  key : Nat
  resolver : V → V → V
  call : DataPacket V → Option V

/-- `MolPropertyCompositor.__call__` (metadata.py lines 160-168): apply the
calculator to every reactant and product, keep the non-absent results as a
uid-keyed dict (later duplicates of a uid overwrite, as in the source's
dict comprehension), and wrap them under the calculator's key in the
molecule partition. -/
def MolPropertyCompositor.call {V : Type} (c : MolPropertyCalc V)
    (rxn : ReactionExplicit V) : MetaPropertyState V :=
  let props := (rxn.reactants ++ rxn.products).foldl
    (fun d mol =>
      match c.call mol with
      | some v => dset d mol.uid v
      | none => d) []
  { mol_info := [(c.key, ⟨props, c.resolver⟩)], op_info := [], rxn_info := [] }

/-- `_mmd` (metadata.py lines 380-391): merge an optional prior metadata
mapping `i1` with an optional freshly computed mapping `i2`.  The non-`None`
side passes through; when both are present the source computes the dict
union `i1 | i2` (the `dict(i1) | i2` branch is the same union on a copy),
in which the right-hand side `i2` wins on key collision. -/
def _mmd {V : Type} (i1 i2 : Option (List (Nat × V))) : Option (List (Nat × V)) :=
  match i1, i2 with
  | none, i2 => i2
  | some d1, none => some d1
  | some d1, some d2 => some (dupdate d1 d2)

/-- The inner loop of the inverted-map construction in `metalib_to_rxn_meta`
(metadata.py lines 397-408): for each `(entity id, value)` of one key's
data, execute `info[id][meta_key] = val`, which first evaluates the lookup
`info[id]` — a `KeyError` whenever `id` has no entry yet. -/
def invertInner {K V : Type} [DecidableEq K] (meta_key : Nat)
    (acc : List (K × List (Nat × V))) :
    List (K × V) → Except String (List (K × List (Nat × V)))
  | [] => .ok acc
  | (id, val) :: t =>
    match alookup acc id with
    | none => .error "KeyError"
    | some inner => invertInner meta_key (dset acc id (dset inner meta_key val)) t

/-- The outer loop of the inverted-map construction: iterate the partition's
keys, folding each key's data through `invertInner`. -/
def invertLoop {K V : Type} [DecidableEq K]
    (acc : List (K × List (Nat × V))) :
    List (Nat × MetaPropertyStateSingleProp K V) →
    Except String (List (K × List (Nat × V)))
  | [] => .ok acc
  | (meta_key, sp) :: t => do
    let acc' ← invertInner meta_key acc sp.data
    invertLoop acc' t

/-- Build one partition's inverted per-entity map, starting from the empty
dict exactly as the source does. -/
def invertPart {K V : Type} [DecidableEq K]
    (part : List (Nat × MetaPropertyStateSingleProp K V)) :
    Except String (List (K × List (Nat × V))) :=
  invertLoop [] part

/-- A dict lookup that raises `KeyError` when the key is absent, the
embedding of `info[id]` on the inverted maps (metadata.py lines 414, 417,
421, 431). -/
def dlookupE {K V : Type} [DecidableEq K] (d : List (K × V)) (k : K) :
    Except String V :=
  match alookup d k with
  | some v => .ok v
  | none => .error "KeyError"

/-- `metalib_to_rxn_meta` (metadata.py lines 394-441).  The source is a
generator whose whole body up to the first `yield` runs before any item is
produced; the embedding returns either the full output stream or the first
raised error (so an error means no item was ever yielded). -/
def metalib_to_rxn_meta {V : Type} (metalib : MetaPropertyState V)
    (rxns : List (ReactionExplicit V × Bool)) :
    Except String (List (ReactionExplicit V × Bool)) := do
  let mol_info ← invertPart metalib.mol_info
  let op_info ← invertPart metalib.op_info
  let rxn_info ← invertPart metalib.rxn_info
  rxns.mapM fun rxn_all => do
    let rxn := rxn_all.1
    let op_fresh ← dlookupE op_info rxn.operator.uid
    let op_data : DataPacket V :=
      ⟨rxn.operator.i, rxn.operator.uid, _mmd rxn.operator.meta (some op_fresh)⟩
    let reactant_data ← rxn.reactants.mapM fun mol => do
      let mol_fresh ← dlookupE mol_info mol.uid
      pure (⟨mol.i, mol.uid, _mmd mol.meta (some mol_fresh)⟩ : DataPacket V)
    let product_data ← rxn.products.mapM fun mol => do
      let mol_fresh ← dlookupE mol_info mol.uid
      pure (⟨mol.i, mol.uid, _mmd mol.meta (some mol_fresh)⟩ : DataPacket V)
    let rxn_fresh ← dlookupE rxn_info
      (rxn.operator.uid, rxn.reactants.map DataPacket.uid,
        rxn.products.map DataPacket.uid)
    pure (⟨op_data, reactant_data, product_data,
      _mmd rxn.reaction_meta (some rxn_fresh)⟩, rxn_all.2)

/-- Modelled from the spec: `logreduce` comes from `utils.py`, which is
absent from the sources.  Per the spec, the annotation step "reduces all
resulting fragments into one Metadata State" by unordered reduction; like
`functools.reduce`, reducing an empty iterable with no initial value is an
error (`TypeError`). -/
def logreduce {A : Type} (f : A → A → A) : List A → Except String A
  | [] => .error "TypeError"
  | x :: xs => .ok (xs.foldl f x)

/-- `RxnAnalysisStepProp.execute` (metadata.py lines 451-459): materialize
the stream, invoke the compositor on the currently-passing reactions only,
reduce the fragments with `|`, and project the result back over the whole
stream. -/
def RxnAnalysisStepProp.execute {V : Type}
    (comp : ReactionExplicit V → MetaPropertyState V)
    (rxns : List (ReactionExplicit V × Bool)) :
    Except String (List (ReactionExplicit V × Bool)) := do
  let rxn_list := rxns
  let prop_map ← logreduce MetaPropertyState.or
    ((rxn_list.filter fun r => r.2).map fun r => comp r.1)
  metalib_to_rxn_meta prop_map rxn_list

/-- `RxnAnalysisStepFilter.execute` (metadata.py lines 468-475): items that
are already failing pass through with `False`; passing items are tested and
kept with the test's outcome; no item is dropped. -/
def RxnAnalysisStepFilter.execute {V : Type}
    (test : ReactionExplicit V → Bool)
    (rxns : List (ReactionExplicit V × Bool)) :
    List (ReactionExplicit V × Bool) :=
  rxns.map fun p => if !p.2 || !test p.1 then (p.1, false) else (p.1, true)

/-- `RxnAnalysisStepCompound.execute` (metadata.py lines 353-365) for the
chain `filter_step >> annotate_step`: the annotation step consumes exactly
the stream the filter step produced. -/
def filterThenAnnotate {V : Type} (test : ReactionExplicit V → Bool)
    (comp : ReactionExplicit V → MetaPropertyState V)
    (rxns : List (ReactionExplicit V × Bool)) :
    Except String (List (ReactionExplicit V × Bool)) :=
  RxnAnalysisStepProp.execute comp (RxnAnalysisStepFilter.execute test rxns)

/-! ## Concrete instances used by individual claims -/

/-- "No stored metadata value is Python `None`" for one metadata table. -/
def noneFree (t : List MetaDict) : Prop :=
  ∀ d ∈ t, ∀ p ∈ d, p.2 ≠ (none : PyVal)

/-- A unary operator compatible with every molecule. -/
def opC1 : Op := ⟨0, 1, fun _ _ => true⟩

/-- A store holding one molecule (handle 0) and one operator (handle 0). -/
def netC1 : ChemNetworkBin :=
  (add_op (add_mol emptyNetwork ⟨0⟩ none).2 opC1 none).2

/-- A unary operator compatible with every molecule. -/
def opC6 : Op := ⟨0, 1, fun _ _ => true⟩

/-- A store holding molecules 0 and 1 and one operator. -/
def netC6 : ChemNetworkBin :=
  (add_op (add_mol (add_mol emptyNetwork ⟨0⟩ none).2 ⟨1⟩ none).2 opC6 none).2

/-- A Metadata State with one molecule-partition entry (key 0, handle 0,
value 5). -/
def mlC4 : MetaPropertyState Nat :=
  ⟨[(0, ⟨[(0, 5)], fun x _ => x⟩)], [], []⟩

/-- A reaction view with one reactant (uid 10) and one product (uid 11). -/
def rxnC4 : ReactionExplicit Nat :=
  ⟨⟨0, 0, none⟩, [⟨1, 10, none⟩], [⟨2, 11, none⟩], none⟩

/-- A compositor producing the fixed fragment `mlC4` for every reaction. -/
def compC4 : ReactionExplicit Nat → MetaPropertyState Nat := fun _ => mlC4

/-- A molecule-property calculator declaring key 0 and computing 1 for
every molecule. -/
def calcC9 : MolPropertyCalc Nat := ⟨0, Nat.add, fun _ => some 1⟩

/-- Reaction R1: operator uid 0, reactant uid 10, product uid 11. -/
def r1C9 : ReactionExplicit Nat :=
  ⟨⟨0, 0, none⟩, [⟨1, 10, none⟩], [⟨2, 11, none⟩], none⟩

/-- Reaction R2: operator uid 1, reactant uid 11, product uid 12. -/
def r2C9 : ReactionExplicit Nat :=
  ⟨⟨1, 1, none⟩, [⟨2, 11, none⟩], [⟨3, 12, none⟩], none⟩

/-- A filter passing exactly the reactions whose operator uid is 0. -/
def testC9 : ReactionExplicit Nat → Bool := fun r => r.operator.uid == 0

/-- A molecule with uid 5. -/
def molC7 : Mol := ⟨5⟩

/-- A binary operator whose slot 0 accepts uid 5 and slot 1 accepts all. -/
def opC7 : Op := ⟨3, 2, fun mol argnum => mol.uid == 5 || argnum == 1⟩

/-- A unary operator compatible with every molecule. -/
def opC8 : Op := ⟨2, 1, fun _ _ => true⟩

/-- The store `netC6` after inserting the reaction (operator 0, reactants
[0], products [1]). -/
def netC6' : ChemNetworkBin :=
  ((add_rxn netC6 0 [0] [1] none).toOption.map Prod.snd).getD emptyNetwork

/-- A store holding one molecule and one operator, for reinsertion tests. -/
def netC8 : ChemNetworkBin :=
  (add_op (add_mol emptyNetwork ⟨1⟩ none).2 opC8 none).2

/-- The store `netC8` after inserting the reaction (op 0, [0] -> [0]). -/
def netC8' : ChemNetworkBin :=
  ((add_rxn netC8 0 [0] [0] none).toOption.map Prod.snd).getD emptyNetwork

/-- A store with one molecule whose metadata dict is `{3: 7}`. -/
def sC10 : ChemNetworkBin :=
  (add_mol emptyNetwork ⟨0⟩ (some [(3, some 7)])).2

/-- The store `sC10` after the metadata write `mol_meta(0, 4, 9)`. -/
def sC10w : ChemNetworkBin :=
  ((mol_meta sC10 0 4 (some 9)).toOption.map Prod.snd).getD emptyNetwork

/-- A store whose reaction-metadata table holds one dict `{1: 2}`. -/
def sC10r : ChemNetworkBin :=
  { emptyNetwork with rxn_meta := [[(1, some 2)]], op_meta := [[(1, some 2)]] }

/-! ## Dictionary lemmas -/

theorem alookup_isSome_iff {K V : Type} [DecidableEq K] (d : List (K × V)) (k : K) :
    (alookup d k).isSome ↔ k ∈ d.map Prod.fst := by
  induction d with
  | nil => simp [alookup]
  | cons p t ih =>
    obtain ⟨k', v⟩ := p
    by_cases h : k' = k
    · subst h; simp [alookup]
    · simp [alookup, h, ih, Ne.symm h]

theorem alookup_eq_none_iff {K V : Type} [DecidableEq K] (d : List (K × V)) (k : K) :
    alookup d k = none ↔ k ∉ d.map Prod.fst := by
  rw [← alookup_isSome_iff, Option.isSome_iff_ne_none]
  tauto

theorem alookup_append_right {K V : Type} [DecidableEq K] {d : List (K × V)} {k : K}
    (h : alookup d k = none) (v : V) : alookup (d ++ [(k, v)]) k = some v := by
  induction d with
  | nil => simp [alookup]
  | cons p t ih =>
    obtain ⟨k', v'⟩ := p
    by_cases hk : k' = k
    · simp [alookup, hk] at h
    · simp only [alookup, hk, if_false, List.cons_append] at h ⊢
      simp [alookup, hk, ih h]

theorem alookup_dset_self {K V : Type} [DecidableEq K] (d : List (K × V)) (k : K) (v : V) :
    alookup (dset d k v) k = some v := by
  induction d with
  | nil => simp [dset, alookup]
  | cons p t ih =>
    obtain ⟨k', v'⟩ := p
    by_cases h : k' = k
    · simp [dset, h, alookup]
    · simp [dset, h, alookup, ih]

theorem alookup_dset_ne {K V : Type} [DecidableEq K] (d : List (K × V)) {k k' : K}
    (h : k' ≠ k) (v : V) : alookup (dset d k' v) k = alookup d k := by
  induction d with
  | nil => simp [dset, alookup, h]
  | cons p t ih =>
    obtain ⟨k₀, v₀⟩ := p
    by_cases h0 : k₀ = k'
    · subst h0; simp [dset, alookup, h]
    · simp [dset, h0, alookup, ih]

theorem alookup_dupdate {K V : Type} [DecidableEq K] (d : List (K × V))
    {e : List (K × V)} (he : (e.map Prod.fst).Nodup) (k : K) :
    alookup (dupdate d e) k =
      match alookup e k with
      | some v => some v
      | none => alookup d k := by
  induction e generalizing d with
  | nil => simp [dupdate, alookup]
  | cons p t ih =>
    obtain ⟨k₀, v₀⟩ := p
    simp only [List.map_cons, List.nodup_cons] at he
    have step : dupdate d ((k₀, v₀) :: t) = dupdate (dset d k₀ v₀) t := by
      simp [dupdate]
    rw [step, ih (dset d k₀ v₀) he.2]
    by_cases hk : k₀ = k
    · subst hk
      have ht : alookup t k₀ = none := by
        rw [alookup_eq_none_iff]; exact he.1
      simp [ht, alookup, alookup_dset_self]
    · simp only [alookup, hk, if_false]
      cases h : alookup t k with
      | some v => simp
      | none => simp [alookup_dset_ne d (by exact hk) v₀]

/-! ## Compatibility-table lemmas (claim C7) -/

theorem getD_range_map {A : Type} (g : Nat → A) (dflt : A) {a n : Nat} (h : a < n) :
    (((List.range n).map g).getD a dflt) = g a := by
  simp [List.getD, List.getElem?_map, List.getElem?_range h]

theorem addMolToRow_compatRow (op : Op) (m : Mol) (mols : List Mol) :
    addMolToRow op m mols.length (compatRow mols op) = compatRow (mols ++ [m]) op := by
  unfold addMolToRow compatRow
  apply List.map_congr_left
  intro a ha
  rw [List.mem_range] at ha
  rw [List.enum_append, List.filterMap_append,
    getD_range_map (fun argnum =>
      mols.enum.filterMap fun p => if op.compat p.2 argnum then some p.1 else none) _ ha]
  have h1 : List.enumFrom mols.length [m] = [(mols.length, m)] := rfl
  rw [h1]
  by_cases hc : op.compat m a
  · simp [hc, List.filterMap]
  · simp [hc, List.filterMap]

theorem netStep_table (s : ChemNetworkBin)
    (h : s.compat_table = s.op_list.map (compatRow s.mol_list)) (i : NetIns) :
    (netStep s i).compat_table =
      (netStep s i).op_list.map (compatRow (netStep s i).mol_list) := by
  cases i with
  | mol m =>
    simp only [netStep, add_mol]
    cases hl : alookup s.mol_map m.uid with
    | some j => simpa [hl] using h
    | none =>
      simp only [hl, h, List.zipWith_map_right, List.zipWith_same]
      apply List.map_congr_left
      intro op _
      exact addMolToRow_compatRow op m s.mol_list
  | op o =>
    simp only [netStep, add_op]
    cases hl : alookup s.op_map o.uid with
    | some j => simpa [hl] using h
    | none => simp [hl, h]

theorem runIns_table (l : List NetIns) :
    (runIns l).compat_table = (runIns l).op_list.map (compatRow (runIns l).mol_list) := by
  suffices H : ∀ s : ChemNetworkBin,
      s.compat_table = s.op_list.map (compatRow s.mol_list) →
      (l.foldl netStep s).compat_table =
        (l.foldl netStep s).op_list.map (compatRow (l.foldl netStep s).mol_list) by
    exact H emptyNetwork rfl
  induction l with
  | nil => intro s hs; simpa using hs
  | cons i t ih =>
    intro s hs
    simpa using ih (netStep s i) (netStep_table s hs i)

/-! ## `Except` plumbing lemmas -/

theorem except_bind_ok {E A B : Type} (a : A) (f : A → Except E B) :
    (Except.ok a >>= f) = f a := rfl

theorem except_bind_error {E A B : Type} (e : E) (f : A → Except E B) :
    ((Except.error e : Except E A) >>= f) = Except.error e := rfl

theorem except_map_ok {E A B : Type} (f : A → B) (e : Except E A) (b : B)
    (h : e.map f = .ok b) : ∃ a, e = .ok a ∧ b = f a := by
  cases e with
  | error err => simp [Except.map] at h
  | ok a =>
    refine ⟨a, rfl, ?_⟩
    simp only [Except.map] at h
    exact (Except.ok.injEq _ _ ▸ h).symm

/-! ## Inverted-map lemmas (claim C4) -/

theorem invertInner_error {K V : Type} [DecidableEq K] (meta_key : Nat)
    {data : List (K × V)} (h : data ≠ []) :
    invertInner meta_key ([] : List (K × List (Nat × V))) data = .error "KeyError" := by
  cases data with
  | nil => exact absurd rfl h
  | cons p t =>
    obtain ⟨id, val⟩ := p
    simp [invertInner, alookup]

theorem invertLoop_ok {K V : Type} [DecidableEq K]
    {part : List (Nat × MetaPropertyStateSingleProp K V)}
    (h : ∀ p ∈ part, p.2.data = []) :
    invertLoop ([] : List (K × List (Nat × V))) part = .ok [] := by
  induction part with
  | nil => rfl
  | cons q t ih =>
    obtain ⟨mk, sp⟩ := q
    have hd : sp.data = [] := h (mk, sp) (List.Mem.head _)
    have hinner : invertInner mk ([] : List (K × List (Nat × V))) sp.data = .ok [] := by
      rw [hd]; rfl
    simp only [invertLoop, hinner, except_bind_ok]
    exact ih fun p hp => h p (List.Mem.tail _ hp)

theorem invertLoop_error {K V : Type} [DecidableEq K]
    {part : List (Nat × MetaPropertyStateSingleProp K V)}
    (h : ∃ p ∈ part, p.2.data ≠ []) :
    invertLoop ([] : List (K × List (Nat × V))) part = .error "KeyError" := by
  induction part with
  | nil => obtain ⟨p, hp, _⟩ := h; cases hp
  | cons q t ih =>
    obtain ⟨mk, sp⟩ := q
    by_cases hd : sp.data = []
    · have hinner : invertInner mk ([] : List (K × List (Nat × V))) sp.data = .ok [] := by
        rw [hd]; rfl
      simp only [invertLoop, hinner, except_bind_ok]
      apply ih
      obtain ⟨p, hp, hne⟩ := h
      cases hp with
      | head => exact absurd hd hne
      | tail _ hmem => exact ⟨p, hmem, hne⟩
    · simp only [invertLoop, invertInner_error mk hd, except_bind_error]

/-! ## `dset` membership and resolver-list lemmas (claims C5, C10) -/

theorem mem_dset {K V : Type} [DecidableEq K] {d : List (K × V)} {k : K} {v : V}
    {p : K × V} (h : p ∈ dset d k v) : p ∈ d ∨ p = (k, v) := by
  induction d with
  | nil => simpa [dset] using h
  | cons q t ih =>
    obtain ⟨k₀, v₀⟩ := q
    by_cases hq : k₀ = k
    · simp only [dset, hq, if_pos rfl] at h
      cases h with
      | head => right; rfl
      | tail _ hmem => left; exact List.Mem.tail _ hmem
    · simp only [dset, hq, if_false] at h
      cases h with
      | head => left; exact List.Mem.head _
      | tail _ hmem =>
        cases ih hmem with
        | inl hl => left; exact List.Mem.tail _ hl
        | inr hr => right; exact hr

theorem alookup_resolveList_mem {K V W : Type} [DecidableEq K] (A B : List (K × V))
    (f : V → V → W) (common : List K) (k : K) (x y : V)
    (hk : k ∈ common) (ha : alookup A k = some x) (hb : alookup B k = some y) :
    alookup (common.filterMap fun k' =>
      match alookup A k', alookup B k' with
      | some x', some y' => some (k', f x' y')
      | _, _ => none) k = some (f x y) := by
  induction common with
  | nil => cases hk
  | cons c t ih =>
    by_cases hc : c = k
    · subst hc
      simp [List.filterMap_cons, ha, hb, alookup]
    · have hk' : k ∈ t := by
        cases hk with
        | head => exact absurd rfl hc
        | tail _ hm => exact hm
      cases hA : alookup A c with
      | none => simpa [List.filterMap_cons, hA] using ih hk'
      | some x' =>
        cases hB : alookup B c with
        | none => simpa [List.filterMap_cons, hA, hB] using ih hk'
        | some y' =>
          simpa [List.filterMap_cons, hA, hB, alookup, hc] using ih hk'

theorem alookup_resolveList_not_mem {K V W : Type} [DecidableEq K] (A B : List (K × V))
    (f : V → V → W) (common : List K) (k : K) (hk : k ∉ common) :
    alookup (common.filterMap fun k' =>
      match alookup A k', alookup B k' with
      | some x', some y' => some (k', f x' y')
      | _, _ => none) k = none := by
  induction common with
  | nil => rfl
  | cons c t ih =>
    have hc : c ≠ k := fun h => hk (h ▸ List.Mem.head _)
    have hk' : k ∉ t := fun h => hk (List.Mem.tail _ h)
    cases hA : alookup A c with
    | none => simpa [List.filterMap_cons, hA] using ih hk'
    | some x' =>
      cases hB : alookup B c with
      | none => simpa [List.filterMap_cons, hA, hB] using ih hk'
      | some y' => simpa [List.filterMap_cons, hA, hB, alookup, hc] using ih hk'

theorem resolveList_keys_sublist {K V W : Type} [DecidableEq K] (A B : List (K × V))
    (f : V → V → W) (common : List K) :
    ((common.filterMap fun k' =>
      match alookup A k', alookup B k' with
      | some x', some y' => some (k', f x' y')
      | _, _ => none).map Prod.fst).Sublist common := by
  induction common with
  | nil => simp
  | cons c t ih =>
    cases hA : alookup A c with
    | none =>
      simp only [List.filterMap_cons, hA]
      exact ih.cons c
    | some x' =>
      cases hB : alookup B c with
      | none =>
        simp only [List.filterMap_cons, hA, hB]
        exact ih.cons c
      | some y' =>
        simp only [List.filterMap_cons, hA, hB, List.map_cons]
        exact ih.cons₂ c

/-! ## `meta_access` lemmas (claim C10) -/

theorem meta_access_read_ok {table : List MetaDict} {index key : Nat} {r : PyVal}
    {t' : List MetaDict} (h : meta_access table index key none = .ok (r, t')) :
    t' = table ∧ ∃ d, table[index]? = some d ∧ alookup d key = some r := by
  cases hi : table[index]? with
  | none => simp [meta_access, hi] at h
  | some d =>
    cases hk : alookup d key with
    | none => simp [meta_access, hi, hk] at h
    | some v =>
      simp only [meta_access, hi, hk, Except.ok.injEq, Prod.mk.injEq] at h
      exact ⟨h.2.symm, d, rfl, by rw [hk, h.1]⟩

theorem meta_access_read_keyerror {table : List MetaDict} {index key : Nat}
    {d : MetaDict} (hi : table[index]? = some d) (hk : alookup d key = none) :
    meta_access table index key none = .error "KeyError" := by
  simp [meta_access, hi, hk]

theorem meta_access_write_ok {table : List MetaDict} {index key : Nat} {v : Nat}
    {r : PyVal} {t' : List MetaDict}
    (h : meta_access table index key (some v) = .ok (r, t')) :
    r = none ∧ alookup (t'.getD index []) key = some (some v) := by
  cases hi : table[index]? with
  | none => simp [meta_access, hi] at h
  | some d =>
    simp only [meta_access, hi, Except.ok.injEq, Prod.mk.injEq] at h
    have hlen : index < table.length := by
      rcases List.getElem?_eq_some_iff.1 hi with ⟨hl, _⟩
      exact hl
    refine ⟨h.1.symm, ?_⟩
    rw [← h.2]
    have hset : (table.set index (dset d key (some v))).getD index [] =
        dset d key (some v) := by
      simp [List.getD, List.getElem?_set_self (by simpa using hlen)]
    rw [hset, alookup_dset_self]

theorem meta_access_noneFree {table : List MetaDict} {index key : Nat} {v : PyVal}
    {r : PyVal} {t' : List MetaDict}
    (h : meta_access table index key v = .ok (r, t')) (hnf : noneFree table) :
    noneFree t' := by
  cases v with
  | none =>
    rw [(meta_access_read_ok h).1]
    exact hnf
  | some w =>
    cases hi : table[index]? with
    | none => simp [meta_access, hi] at h
    | some d =>
      simp only [meta_access, hi, Except.ok.injEq, Prod.mk.injEq] at h
      rw [← h.2]
      intro d' hd' p hp
      cases List.mem_or_eq_of_mem_set hd' with
      | inl hmem => exact hnf d' hmem p hp
      | inr heq =>
        subst heq
        cases mem_dset hp with
        | inl hin =>
          exact hnf d (List.mem_iff_getElem?.2 ⟨index, hi⟩) p hin
        | inr hpv => rw [hpv]; simp

/-! ## Claim theorems -/

/-- C1: the claim states that `add_rxn` with any out-of-range operator,
reactant, or product handle fails with the referential-integrity
(out-of-range) error and appends nothing.  On the store `netC1` (one
molecule, handle 0; one operator, handle 0) the source instead *succeeds*
for all three out-of-range handle kinds — reactant 5, product 5, and
operator 7 — returning a fresh handle and appending the reaction record,
because lines 278-286 construct the `IndexError` without raising it. -/
theorem c1_add_rxn_ignores_out_of_range :
    (add_rxn netC1 0 [5] [0] none).map (fun p => (p.1, p.2.rxn_list)) =
      .ok (0, [⟨0, [5], [0]⟩]) ∧
    (add_rxn netC1 0 [0] [5] none).map (fun p => (p.1, p.2.rxn_list)) =
      .ok (0, [⟨0, [0], [5]⟩]) ∧
    (add_rxn netC1 7 [0] [0] none).map (fun p => (p.1, p.2.rxn_list)) =
      .ok (0, [⟨7, [0], [0]⟩]) :=
  ⟨rfl, rfl, rfl⟩

/-- C3: the claim states that `&`-composition fails at construction time on
overlapping same-partition key sets.  In the source the conflict guard
compares `len(a | b) > len(a) + len(b)`, which is never true, so
`KeyOutput.__and__` *always* succeeds with the per-partition unions — in
particular for two compositors both declaring molecule key 0 ("mass"). -/
theorem c3_and_never_raises :
    (∀ a b : KeyOutput,
      KeyOutput.and a b =
        .ok ⟨a.mol_keys ∪ b.mol_keys, a.op_keys ∪ b.op_keys,
          a.rxn_keys ∪ b.rxn_keys⟩) ∧
    KeyOutput.and ⟨{0}, ∅, ∅⟩ ⟨{0}, ∅, ∅⟩ = .ok ⟨{0}, ∅, ∅⟩ := by
  have main : ∀ a b : KeyOutput,
      KeyOutput.and a b =
        .ok ⟨a.mol_keys ∪ b.mol_keys, a.op_keys ∪ b.op_keys,
          a.rxn_keys ∪ b.rxn_keys⟩ := by
    intro a b
    have h1 : ¬ (a.mol_keys ∪ b.mol_keys).card > a.mol_keys.card + b.mol_keys.card :=
      Nat.not_lt.2 (Finset.card_union_le _ _)
    have h2 : ¬ (a.op_keys ∪ b.op_keys).card > a.op_keys.card + b.op_keys.card :=
      Nat.not_lt.2 (Finset.card_union_le _ _)
    have h3 : ¬ (a.rxn_keys ∪ b.rxn_keys).card > a.rxn_keys.card + b.rxn_keys.card :=
      Nat.not_lt.2 (Finset.card_union_le _ _)
    simp [KeyOutput.and, h1, h2, h3]
  refine ⟨main, ?_⟩
  rw [main ⟨{0}, ∅, ∅⟩ ⟨{0}, ∅, ∅⟩]
  simp

/-- C9: the claim states that for the pipeline `filter_step >>
annotate_step`, the filter drops nothing and only flips true to false, the
annotation aggregate covers only the passing reactions, and every reaction
then appears annotated in the output.  The filter half holds (first
conjunct: R2 is retained with its flag flipped to false), but the
annotation step crashes with `KeyError` before yielding any output item,
because the compositor produced values for R1's molecules and the
inverted-map construction of `metalib_to_rxn_meta` indexes `mol_info[uid]`
before creating it — so no reaction appears in the output at all. -/
theorem c9_pipeline_crashes :
    RxnAnalysisStepFilter.execute testC9 [(r1C9, true), (r2C9, true)] =
      [(r1C9, true), (r2C9, false)] ∧
    filterThenAnnotate testC9 (MolPropertyCompositor.call calcC9)
      [(r1C9, true), (r2C9, true)] = .error "KeyError" :=
  ⟨rfl, rfl⟩

/-- C2 counterexample: the claim states that in the annotation projection,
for a key present both in the prior metadata and in the freshly computed
metadata, the result carries the *prior* value.  At prior `{0: 10}` and
fresh `{0: 20}`, the projection's merge `_mmd` yields `{0: 20}`: the prior
value 10 is overwritten by the freshly computed 20. -/
theorem c2_projection_overwrites_cex :
    _mmd (some [(0, (10 : Nat))]) (some [(0, 20)]) = some [(0, 20)] ∧
    alookup ((_mmd (some [(0, (10 : Nat))]) (some [(0, 20)])).getD []) 0 ≠
      some 10 :=
  ⟨rfl, by decide⟩

/-- C5 counterexample: the claim states that when one side's value map is
empty, the merge result is exactly the non-empty side *including its
resolver*.  Merging a non-empty left fragment (resolver `+`) with an empty
right fragment (resolver constantly 0) keeps the left data but adopts the
*empty* side's resolver: the result's resolver sends (1, 1) to 0, not to
1 + 1. -/
theorem c5_or_resolver_cex :
    (MetaPropertyStateSingleProp.or
        (⟨[(0, 1)], fun x y => x + y⟩ : MetaPropertyStateSingleProp Nat Nat)
        ⟨[], fun _ _ => 0⟩).data = [(0, 1)] ∧
    (MetaPropertyStateSingleProp.or
        (⟨[(0, 1)], fun x y => x + y⟩ : MetaPropertyStateSingleProp Nat Nat)
        ⟨[], fun _ _ => 0⟩).resolver 1 1 = 0 ∧
    (0 : Nat) ≠ 1 + 1 :=
  ⟨rfl, rfl, by decide⟩

/-- C6 counterexample: the claim states that after a successful `add_rxn`,
`producers(m)` contains the new reaction handle for each product `m` and
`consumers(m)` for each reactant `m`.  On `netC6`, inserting reaction
(op 0, reactants [0], products [1]) succeeds with handle 0, yet
`producers(1)` and `consumers(0)` both fail with `KeyError`: `add_rxn`
never touches the producer/consumer maps, which stay empty. -/
theorem c6_producers_unpopulated_cex :
    (add_rxn netC6 0 [0] [1] none).map
        (fun p => (p.1, producers p.2 1, consumers p.2 0)) =
      .ok (0, .error "KeyError", .error "KeyError") :=
  rfl

/-- C2 (amended): in the projection step's metadata merge `_mmd`, for every
key present in both the prior and the freshly computed mapping, the result
carries the *freshly computed* value (prior values for colliding keys are
overwritten); keys present only on one side pass through unchanged, and a
`None` side passes the other side through. -/
theorem c2_mmd_projection (V : Type) (prior fresh : List (Nat × V))
    (hnf : (fresh.map Prod.fst).Nodup) :
    (∀ k v, alookup fresh k = some v →
      alookup ((_mmd (some prior) (some fresh)).getD []) k = some v) ∧
    (∀ k v, alookup fresh k = none → alookup prior k = some v →
      alookup ((_mmd (some prior) (some fresh)).getD []) k = some v) ∧
    _mmd (some prior) none = some prior ∧
    _mmd (none : Option (List (Nat × V))) (some fresh) = some fresh := by
  refine ⟨?_, ?_, rfl, rfl⟩
  · intro k v hk
    show alookup (dupdate prior fresh) k = some v
    rw [alookup_dupdate prior hnf k, hk]
  · intro k v hk hp
    show alookup (dupdate prior fresh) k = some v
    rw [alookup_dupdate prior hnf k, hk, hp]

/-- C2 witness: at prior `{0: 10, 1: 7}` and fresh `{0: 20}`, the projected
metadata maps key 0 to the freshly computed 20 and the fresh-absent key 1
to the prior 7. -/
theorem c2_mmd_projection_witness :
    alookup ((_mmd (some [(0, (10 : Nat)), (1, 7)]) (some [(0, 20)])).getD []) 0 =
      some 20 ∧
    alookup ((_mmd (some [(0, (10 : Nat)), (1, 7)]) (some [(0, 20)])).getD []) 1 =
      some 7 :=
  ⟨(c2_mmd_projection Nat [(0, 10), (1, 7)] [(0, 20)] (by decide)).1 0 20 rfl,
   (c2_mmd_projection Nat [(0, 10), (1, 7)] [(0, 20)] (by decide)).2.1 1 7 rfl rfl⟩

/-- C4: whenever the reduced Metadata State holds at least one
(key, handle, value) entry in any partition, `metalib_to_rxn_meta` fails
with `KeyError` while building the inverted per-entity map (the per-entity
inner dict is indexed before it is created), yielding no output item; and
consequently an annotation step whose reduced state holds any entry fails
with `KeyError` before yielding a single output item. -/
theorem c4_metalib_keyerror :
    (∀ (V : Type) (metalib : MetaPropertyState V)
        (rxns : List (ReactionExplicit V × Bool)),
      ((∃ p ∈ metalib.mol_info, p.2.data ≠ []) ∨
        (∃ p ∈ metalib.op_info, p.2.data ≠ []) ∨
        (∃ p ∈ metalib.rxn_info, p.2.data ≠ [])) →
      metalib_to_rxn_meta metalib rxns = .error "KeyError") ∧
    (∀ (V : Type) (comp : ReactionExplicit V → MetaPropertyState V)
        (rxns : List (ReactionExplicit V × Bool)) (pm : MetaPropertyState V),
      logreduce MetaPropertyState.or
          ((rxns.filter fun r => r.2).map fun r => comp r.1) = .ok pm →
      ((∃ p ∈ pm.mol_info, p.2.data ≠ []) ∨
        (∃ p ∈ pm.op_info, p.2.data ≠ []) ∨
        (∃ p ∈ pm.rxn_info, p.2.data ≠ [])) →
      RxnAnalysisStepProp.execute comp rxns = .error "KeyError") := by
  have main : ∀ (V : Type) (metalib : MetaPropertyState V)
      (rxns : List (ReactionExplicit V × Bool)),
      ((∃ p ∈ metalib.mol_info, p.2.data ≠ []) ∨
        (∃ p ∈ metalib.op_info, p.2.data ≠ []) ∨
        (∃ p ∈ metalib.rxn_info, p.2.data ≠ [])) →
      metalib_to_rxn_meta metalib rxns = .error "KeyError" := by
    intro V metalib rxns h
    show (invertPart metalib.mol_info >>= fun mol_info =>
      invertPart metalib.op_info >>= fun op_info =>
      invertPart metalib.rxn_info >>= fun rxn_info => _) = Except.error "KeyError"
    by_cases h1 : ∃ p ∈ metalib.mol_info, p.2.data ≠ []
    · rw [show invertPart metalib.mol_info = .error "KeyError" from invertLoop_error h1,
        except_bind_error]
    · have h1' : ∀ p ∈ metalib.mol_info, p.2.data = [] := by
        intro p hp
        by_contra hne
        exact h1 ⟨p, hp, hne⟩
      rw [show invertPart metalib.mol_info = .ok [] from invertLoop_ok h1',
        except_bind_ok]
      by_cases h2 : ∃ p ∈ metalib.op_info, p.2.data ≠ []
      · rw [show invertPart metalib.op_info = .error "KeyError" from invertLoop_error h2,
          except_bind_error]
      · have h2' : ∀ p ∈ metalib.op_info, p.2.data = [] := by
          intro p hp
          by_contra hne
          exact h2 ⟨p, hp, hne⟩
        rw [show invertPart metalib.op_info = .ok [] from invertLoop_ok h2',
          except_bind_ok]
        have h3 : ∃ p ∈ metalib.rxn_info, p.2.data ≠ [] := by
          rcases h with hm | ho | hr
          · exact absurd hm h1
          · exact absurd ho h2
          · exact hr
        rw [show invertPart metalib.rxn_info = .error "KeyError" from invertLoop_error h3,
          except_bind_error]
  refine ⟨main, ?_⟩
  intro V comp rxns pm hlog hne
  show (logreduce MetaPropertyState.or
      ((rxns.filter fun r => r.2).map fun r => comp r.1) >>= fun prop_map =>
        metalib_to_rxn_meta prop_map rxns) = Except.error "KeyError"
  rw [hlog, except_bind_ok]
  exact main V pm rxns hne

/-- C4 witness: a Metadata State with one molecule-partition entry makes
`metalib_to_rxn_meta` fail with `KeyError`, and an annotation step whose
compositor produces that state fails with `KeyError`. -/
theorem c4_metalib_keyerror_witness :
    metalib_to_rxn_meta mlC4 ([] : List (ReactionExplicit Nat × Bool)) =
      .error "KeyError" ∧
    RxnAnalysisStepProp.execute compC4 [(rxnC4, true)] = .error "KeyError" :=
  ⟨c4_metalib_keyerror.1 Nat mlC4 []
      (Or.inl ⟨(0, ⟨[(0, 5)], fun x _ => x⟩), List.Mem.head _, by simp⟩),
   c4_metalib_keyerror.2 Nat compC4 [(rxnC4, true)] mlC4 rfl
      (Or.inl ⟨(0, ⟨[(0, 5)], fun x _ => x⟩), List.Mem.head _, by simp⟩)⟩

/-- C6 (amended): `add_rxn` never updates the producer/consumer reverse
index: a successful insertion leaves both maps exactly as they were, and
since the store initializes them empty, `producers`/`consumers` fail with
`KeyError` for every molecule handle. -/
theorem c6_add_rxn_preserves_index :
    (∀ (s : ChemNetworkBin) (op : Nat) (r p : List Nat) (meta : Option MetaDict)
        (i : Nat) (s' : ChemNetworkBin),
      add_rxn s op r p meta = .ok (i, s') →
        s'.mol_producers = s.mol_producers ∧ s'.mol_consumers = s.mol_consumers) ∧
    (∀ s : ChemNetworkBin, s.mol_producers = [] →
      ∀ m, producers s m = .error "KeyError") ∧
    (∀ s : ChemNetworkBin, s.mol_consumers = [] →
      ∀ m, consumers s m = .error "KeyError") := by
  refine ⟨?_, ?_, ?_⟩
  · intro s op r p meta i s' h
    cases hl : alookup s.rxn_map ⟨op, r, p⟩ with
    | some j =>
      simp only [add_rxn, hl, Except.ok.injEq, Prod.mk.injEq] at h
      rw [← h.2]
      exact ⟨rfl, rfl⟩
    | none =>
      by_cases he : (r.isEmpty || p.isEmpty) = true
      · simp [add_rxn, hl, he] at h
      · simp only [add_rxn, hl, Bool.not_eq_true] at h
        rw [Bool.not_eq_true] at he
        rw [if_neg (by simp [he])] at h
        simp only [Except.ok.injEq, Prod.mk.injEq] at h
        rw [← h.2]
        exact ⟨rfl, rfl⟩
  · intro s hs m
    simp [producers, hs, alookup]
  · intro s hs m
    simp [consumers, hs, alookup]

/-- C6 witness: inserting reaction (op 0, [0] -> [1]) into `netC6` leaves
both reverse maps empty and both lookups failing. -/
theorem c6_add_rxn_preserves_index_witness :
    (netC6'.mol_producers = netC6.mol_producers ∧
      netC6'.mol_consumers = netC6.mol_consumers) ∧
    producers netC6' 1 = .error "KeyError" ∧
    consumers netC6' 0 = .error "KeyError" :=
  ⟨c6_add_rxn_preserves_index.1 netC6 0 [0] [1] none 0 netC6' rfl,
   c6_add_rxn_preserves_index.2.1 netC6' rfl 1,
   c6_add_rxn_preserves_index.2.2 netC6' rfl 0⟩

/-- C7: after any sequence of `add_mol`/`add_op` calls in any interleaving,
the compatibility table is exactly the from-scratch table: row `i` is
`compatRow` of the final molecule registry for operator `i`, i.e. entry
(operator, slot) is exactly the molecule handles whose molecule satisfies
that slot's predicate; consequently any two insertion sequences reaching
the same registries (e.g. molecules-first vs operator-first) converge to
the same table. -/
theorem c7_compat_table_correct (l : List NetIns) :
    (runIns l).compat_table = (runIns l).op_list.map (compatRow (runIns l).mol_list) ∧
    ∀ l' : List NetIns,
      (runIns l').mol_list = (runIns l).mol_list →
      (runIns l').op_list = (runIns l).op_list →
      (runIns l').compat_table = (runIns l).compat_table := by
  refine ⟨runIns_table l, fun l' h1 h2 => ?_⟩
  rw [runIns_table l', runIns_table l, h1, h2]

/-- C7 witness: inserting molecule `molC7` then operator `opC7` yields the
from-scratch table, and the reverse insertion order converges to the same
table. -/
theorem c7_compat_table_correct_witness :
    (runIns [NetIns.mol molC7, NetIns.op opC7]).compat_table =
      (runIns [NetIns.mol molC7, NetIns.op opC7]).op_list.map
        (compatRow (runIns [NetIns.mol molC7, NetIns.op opC7]).mol_list) ∧
    (runIns [NetIns.op opC7, NetIns.mol molC7]).compat_table =
      (runIns [NetIns.mol molC7, NetIns.op opC7]).compat_table :=
  ⟨(c7_compat_table_correct [NetIns.mol molC7, NetIns.op opC7]).1,
   (c7_compat_table_correct [NetIns.mol molC7, NetIns.op opC7]).2
      [NetIns.op opC7, NetIns.mol molC7] rfl rfl⟩

/-- C5 (amended): merging two same-key Metadata State fragments behaves as
follows.  If the left side's value map is empty, the result is the right
side verbatim.  If (only) the right side's map is empty, the result keeps
the left side's data but adopts the *right* side's resolver (the empty
side's resolver propagates, not the non-empty side's).  For the stored
values, in every case: a handle present in both sides maps to
`left.resolver (left value) (right value)`, and a handle present in only
one side keeps its value unchanged. -/
theorem c5_or_merge (K V : Type) [DecidableEq K]
    (a b : MetaPropertyStateSingleProp K V) :
    (a.data = [] → a.or b = b) ∧
    (a.data ≠ [] → b.data = [] →
      (a.or b).data = a.data ∧ (a.or b).resolver = b.resolver) ∧
    ((a.data.map Prod.fst).Nodup → (b.data.map Prod.fst).Nodup →
      (∀ k x y, alookup a.data k = some x → alookup b.data k = some y →
        alookup (a.or b).data k = some (a.resolver x y)) ∧
      (∀ k x, alookup a.data k = some x → alookup b.data k = none →
        alookup (a.or b).data k = some x) ∧
      (∀ k y, alookup a.data k = none → alookup b.data k = some y →
        alookup (a.or b).data k = some y)) := by
  refine ⟨?_, ?_, ?_⟩
  · intro ha
    simp [MetaPropertyStateSingleProp.or, ha]
  · intro ha hb
    have ha' : ¬ (a.data.length = 0) := fun h => ha (List.length_eq_zero.1 h)
    simp [MetaPropertyStateSingleProp.or, ha', hb]
  · intro hna hnb
    by_cases ha : a.data = []
    · have hres : a.or b = b := by simp [MetaPropertyStateSingleProp.or, ha]
      rw [hres]
      refine ⟨?_, ?_, ?_⟩
      · intro k x y hx _
        rw [ha] at hx
        simp [alookup] at hx
      · intro k x hx _
        rw [ha] at hx
        simp [alookup] at hx
      · intro k y _ hy
        exact hy
    · by_cases hb : b.data = []
      · have ha' : ¬ (a.data.length = 0) := fun h => ha (List.length_eq_zero.1 h)
        have hres : (a.or b).data = a.data := by
          simp [MetaPropertyStateSingleProp.or, ha', hb]
        rw [hres]
        refine ⟨?_, ?_, ?_⟩
        · intro k x y _ hy
          rw [hb] at hy
          simp [alookup] at hy
        · intro k x hx _
          exact hx
        · intro k y _ hy
          rw [hb] at hy
          simp [alookup] at hy
      · have ha' : ¬ (a.data.length = 0) := fun h => ha (List.length_eq_zero.1 h)
        have hb' : ¬ (b.data.length = 0) := fun h => hb (List.length_eq_zero.1 h)
        have hor : a.or b =
            if ((a.data.map Prod.fst).filter fun k =>
                (alookup b.data k).isSome).length = 0 then
              ⟨dupdate b.data a.data, b.resolver⟩
            else
              ⟨dupdate (dupdate b.data a.data)
                (((a.data.map Prod.fst).filter fun k =>
                  (alookup b.data k).isSome).filterMap fun k =>
                    match alookup a.data k, alookup b.data k with
                    | some x, some y => some (k, a.resolver x y)
                    | _, _ => none), b.resolver⟩ := by
          simp [MetaPropertyStateSingleProp.or, ha', hb']
        by_cases hc : ((a.data.map Prod.fst).filter fun k =>
            (alookup b.data k).isSome).length = 0
        · rw [hor, if_pos hc]
          have hcom : (a.data.map Prod.fst).filter
              (fun k => (alookup b.data k).isSome) = [] := List.length_eq_zero.1 hc
          refine ⟨?_, ?_, ?_⟩
          · intro k x y hx hy
            have hka : k ∈ a.data.map Prod.fst :=
              (alookup_isSome_iff a.data k).1 (by rw [hx]; rfl)
            have hkb : (alookup b.data k).isSome = true := by rw [hy]; rfl
            have : k ∈ (a.data.map Prod.fst).filter
                fun k => (alookup b.data k).isSome := List.mem_filter.2 ⟨hka, hkb⟩
            rw [hcom] at this
            cases this
          · intro k x hx _
            show alookup (dupdate b.data a.data) k = some x
            rw [alookup_dupdate b.data hna k, hx]
          · intro k y hx hy
            show alookup (dupdate b.data a.data) k = some y
            rw [alookup_dupdate b.data hna k, hx, hy]
        · rw [hor, if_neg hc]
          have hrn : ((((a.data.map Prod.fst).filter fun k =>
              (alookup b.data k).isSome).filterMap fun k =>
                match alookup a.data k, alookup b.data k with
                | some x, some y => some (k, a.resolver x y)
                | _, _ => none).map Prod.fst).Nodup :=
            List.Nodup.sublist
              (resolveList_keys_sublist a.data b.data a.resolver _)
              (List.Nodup.filter _ hna)
          refine ⟨?_, ?_, ?_⟩
          · intro k x y hx hy
            have hka : k ∈ a.data.map Prod.fst :=
              (alookup_isSome_iff a.data k).1 (by rw [hx]; rfl)
            have hkb : (alookup b.data k).isSome = true := by rw [hy]; rfl
            have hkc : k ∈ (a.data.map Prod.fst).filter
                fun k => (alookup b.data k).isSome := List.mem_filter.2 ⟨hka, hkb⟩
            show alookup (dupdate (dupdate b.data a.data) _) k = some (a.resolver x y)
            rw [alookup_dupdate _ hrn k,
              alookup_resolveList_mem a.data b.data a.resolver _ k x y hkc hx hy]
          · intro k x hx hy
            have hkc : k ∉ (a.data.map Prod.fst).filter
                fun k => (alookup b.data k).isSome := by
              intro hmem
              have := (List.mem_filter.1 hmem).2
              rw [hy] at this
              cases this
            show alookup (dupdate (dupdate b.data a.data) _) k = some x
            rw [alookup_dupdate _ hrn k,
              alookup_resolveList_not_mem a.data b.data a.resolver _ k hkc,
              alookup_dupdate b.data hna k, hx]
          · intro k y hx hy
            have hkc : k ∉ (a.data.map Prod.fst).filter
                fun k => (alookup b.data k).isSome := by
              intro hmem
              have := (alookup_isSome_iff a.data k).2 (List.mem_filter.1 hmem).1
              rw [hx] at this
              cases this
            show alookup (dupdate (dupdate b.data a.data) _) k = some y
            rw [alookup_dupdate _ hrn k,
              alookup_resolveList_not_mem a.data b.data a.resolver _ k hkc,
              alookup_dupdate b.data hna k, hx, hy]

/-- C5 witness: merging fragments `{0: 1, 1: 2}` (resolver `+`) and
`{0: 10, 2: 30}` (resolver `*`): the shared handle 0 resolves to
`1 + 10 = 11`, the left-only handle 1 keeps 2, the right-only handle 2
keeps 30. -/
theorem c5_or_merge_witness :
    alookup (MetaPropertyStateSingleProp.or
        (⟨[(0, 1), (1, 2)], Nat.add⟩ : MetaPropertyStateSingleProp Nat Nat)
        ⟨[(0, 10), (2, 30)], Nat.mul⟩).data 0 = some 11 ∧
    alookup (MetaPropertyStateSingleProp.or
        (⟨[(0, 1), (1, 2)], Nat.add⟩ : MetaPropertyStateSingleProp Nat Nat)
        ⟨[(0, 10), (2, 30)], Nat.mul⟩).data 1 = some 2 ∧
    alookup (MetaPropertyStateSingleProp.or
        (⟨[(0, 1), (1, 2)], Nat.add⟩ : MetaPropertyStateSingleProp Nat Nat)
        ⟨[(0, 10), (2, 30)], Nat.mul⟩).data 2 = some 30 :=
  ⟨((c5_or_merge Nat Nat ⟨[(0, 1), (1, 2)], Nat.add⟩
        ⟨[(0, 10), (2, 30)], Nat.mul⟩).2.2 (by decide) (by decide)).1 0 1 10 rfl rfl,
   ((c5_or_merge Nat Nat ⟨[(0, 1), (1, 2)], Nat.add⟩
        ⟨[(0, 10), (2, 30)], Nat.mul⟩).2.2 (by decide) (by decide)).2.1 1 2 rfl rfl,
   ((c5_or_merge Nat Nat ⟨[(0, 1), (1, 2)], Nat.add⟩
        ⟨[(0, 10), (2, 30)], Nat.mul⟩).2.2 (by decide) (by decide)).2.2 2 30 rfl rfl⟩

/-- C8: insertion is idempotent for all three entity kinds.  Re-adding a
molecule (resp. operator) whose identity is already mapped, or a reaction
whose (operator, reactants, products) triple is already registered, returns
the existing handle and leaves the store completely unchanged; and a
repeated insert of the same argument always returns the same handle and
state as the first insert. -/
theorem c8_idempotent_insert :
    (∀ (s : ChemNetworkBin) (mol : Mol) (meta : Option MetaDict) (i : Nat),
      alookup s.mol_map mol.uid = some i → add_mol s mol meta = (i, s)) ∧
    (∀ (s : ChemNetworkBin) (op : Op) (meta : Option MetaDict) (i : Nat),
      alookup s.op_map op.uid = some i → add_op s op meta = (i, s)) ∧
    (∀ (s : ChemNetworkBin) (op : Nat) (r p : List Nat) (meta : Option MetaDict)
        (i : Nat),
      alookup s.rxn_map ⟨op, r, p⟩ = some i →
        add_rxn s op r p meta = .ok (i, s)) ∧
    (∀ (s : ChemNetworkBin) (mol : Mol) (m1 m2 : Option MetaDict),
      add_mol (add_mol s mol m1).2 mol m2 =
        ((add_mol s mol m1).1, (add_mol s mol m1).2)) ∧
    (∀ (s : ChemNetworkBin) (op : Op) (m1 m2 : Option MetaDict),
      add_op (add_op s op m1).2 op m2 =
        ((add_op s op m1).1, (add_op s op m1).2)) ∧
    (∀ (s : ChemNetworkBin) (op : Nat) (r p : List Nat) (m1 m2 : Option MetaDict)
        (i : Nat) (s' : ChemNetworkBin),
      add_rxn s op r p m1 = .ok (i, s') → add_rxn s' op r p m2 = .ok (i, s')) := by
  refine ⟨?_, ?_, ?_, ?_, ?_, ?_⟩
  · intro s mol meta i h
    simp [add_mol, h]
  · intro s op meta i h
    simp [add_op, h]
  · intro s op r p meta i h
    simp [add_rxn, h]
  · intro s mol m1 m2
    cases hl : alookup s.mol_map mol.uid with
    | some j => simp [add_mol, hl]
    | none =>
      have hl2 : alookup (s.mol_map ++ [(mol.uid, s.mol_list.length)]) mol.uid =
          some s.mol_list.length := alookup_append_right hl _
      simp [add_mol, hl, hl2]
  · intro s op m1 m2
    cases hl : alookup s.op_map op.uid with
    | some j => simp [add_op, hl]
    | none =>
      have hl2 : alookup (s.op_map ++ [(op.uid, s.op_list.length)]) op.uid =
          some s.op_list.length := alookup_append_right hl _
      simp [add_op, hl, hl2]
  · intro s op r p m1 m2 i s' h
    cases hl : alookup s.rxn_map ⟨op, r, p⟩ with
    | some j =>
      simp only [add_rxn, hl, Except.ok.injEq, Prod.mk.injEq] at h
      rw [← h.2, ← h.1]
      simp [add_rxn, hl]
    | none =>
      by_cases he : (r.isEmpty || p.isEmpty) = true
      · simp [add_rxn, hl, he] at h
      · simp only [add_rxn, hl] at h
        rw [if_neg he] at h
        simp only [Except.ok.injEq, Prod.mk.injEq] at h
        have hl2 : alookup (s.rxn_map ++ [(⟨op, r, p⟩, s.rxn_list.length)])
            (⟨op, r, p⟩ : Reaction) = some s.rxn_list.length :=
          alookup_append_right hl _
        rw [← h.2, ← h.1]
        simp [add_rxn, hl2]

/-- C8 witness: reinserting molecule ⟨1⟩, operator `opC8`, and reaction
(op 0, [0] -> [0]) each return handle 0 and the unchanged store. -/
theorem c8_idempotent_insert_witness :
    add_mol (add_mol emptyNetwork ⟨1⟩ none).2 ⟨1⟩ none =
      (0, (add_mol emptyNetwork ⟨1⟩ none).2) ∧
    add_op (add_op emptyNetwork opC8 none).2 opC8 none =
      (0, (add_op emptyNetwork opC8 none).2) ∧
    add_rxn netC8' 0 [0] [0] none = .ok (0, netC8') :=
  ⟨c8_idempotent_insert.1 (add_mol emptyNetwork ⟨1⟩ none).2 ⟨1⟩ none 0 rfl,
   c8_idempotent_insert.2.1 (add_op emptyNetwork opC8 none).2 opC8 none 0 rfl,
   c8_idempotent_insert.2.2.1 netC8' 0 [0] [0] none 0 rfl⟩

/-- C10: for each of `mol_meta`, `op_meta`, `rxn_meta`: a call with value
`None` is a pure read — it returns the stored value for the key, raises
`KeyError` when the key is absent, and leaves the store unchanged — while a
call with a non-`None` value stores exactly that value; consequently the
value `None` is never stored through this interface (a none-free metadata
table stays none-free), and a "write" of `None` is indistinguishable from a
lookup. -/
theorem c10_meta_read_write :
    (∀ (s : ChemNetworkBin) (i k : Nat),
      (∀ r s', mol_meta s i k none = .ok (r, s') →
        s' = s ∧ ∃ d, s.mol_meta[i]? = some d ∧ alookup d k = some r) ∧
      (∀ d, s.mol_meta[i]? = some d → alookup d k = none →
        mol_meta s i k none = .error "KeyError") ∧
      (∀ v r s', mol_meta s i k (some v) = .ok (r, s') →
        r = none ∧ alookup (s'.mol_meta.getD i []) k = some (some v)) ∧
      (∀ v r s', mol_meta s i k v = .ok (r, s') →
        noneFree s.mol_meta → noneFree s'.mol_meta)) ∧
    (∀ (s : ChemNetworkBin) (i k : Nat),
      (∀ r s', op_meta s i k none = .ok (r, s') →
        s' = s ∧ ∃ d, s.op_meta[i]? = some d ∧ alookup d k = some r) ∧
      (∀ d, s.op_meta[i]? = some d → alookup d k = none →
        op_meta s i k none = .error "KeyError") ∧
      (∀ v r s', op_meta s i k (some v) = .ok (r, s') →
        r = none ∧ alookup (s'.op_meta.getD i []) k = some (some v)) ∧
      (∀ v r s', op_meta s i k v = .ok (r, s') →
        noneFree s.op_meta → noneFree s'.op_meta)) ∧
    (∀ (s : ChemNetworkBin) (i k : Nat),
      (∀ r s', rxn_meta s i k none = .ok (r, s') →
        s' = s ∧ ∃ d, s.rxn_meta[i]? = some d ∧ alookup d k = some r) ∧
      (∀ d, s.rxn_meta[i]? = some d → alookup d k = none →
        rxn_meta s i k none = .error "KeyError") ∧
      (∀ v r s', rxn_meta s i k (some v) = .ok (r, s') →
        r = none ∧ alookup (s'.rxn_meta.getD i []) k = some (some v)) ∧
      (∀ v r s', rxn_meta s i k v = .ok (r, s') →
        noneFree s.rxn_meta → noneFree s'.rxn_meta)) := by
  refine ⟨fun s i k => ⟨?_, ?_, ?_, ?_⟩, fun s i k => ⟨?_, ?_, ?_, ?_⟩,
    fun s i k => ⟨?_, ?_, ?_, ?_⟩⟩
  · intro r s' h
    obtain ⟨⟨r', t'⟩, ha, hb⟩ := except_map_ok _ _ _ h
    obtain ⟨ht, d, hd, hk⟩ := meta_access_read_ok ha
    simp only [Prod.mk.injEq] at hb
    obtain ⟨hr, hs⟩ := hb
    subst hr hs ht
    exact ⟨rfl, d, hd, hk⟩
  · intro d hd hk
    simp only [mol_meta, meta_access_read_keyerror hd hk]
    rfl
  · intro v r s' h
    obtain ⟨⟨r', t'⟩, ha, hb⟩ := except_map_ok _ _ _ h
    obtain ⟨hr, hl⟩ := meta_access_write_ok ha
    simp only [Prod.mk.injEq] at hb
    obtain ⟨hb1, hb2⟩ := hb
    subst hb1 hb2 hr
    exact ⟨rfl, hl⟩
  · intro v r s' h hnf
    obtain ⟨⟨r', t'⟩, ha, hb⟩ := except_map_ok _ _ _ h
    simp only [Prod.mk.injEq] at hb
    rw [hb.2]
    exact meta_access_noneFree ha hnf
  · intro r s' h
    obtain ⟨⟨r', t'⟩, ha, hb⟩ := except_map_ok _ _ _ h
    obtain ⟨ht, d, hd, hk⟩ := meta_access_read_ok ha
    simp only [Prod.mk.injEq] at hb
    obtain ⟨hr, hs⟩ := hb
    subst hr hs ht
    exact ⟨rfl, d, hd, hk⟩
  · intro d hd hk
    simp only [op_meta, meta_access_read_keyerror hd hk]
    rfl
  · intro v r s' h
    obtain ⟨⟨r', t'⟩, ha, hb⟩ := except_map_ok _ _ _ h
    obtain ⟨hr, hl⟩ := meta_access_write_ok ha
    simp only [Prod.mk.injEq] at hb
    obtain ⟨hb1, hb2⟩ := hb
    subst hb1 hb2 hr
    exact ⟨rfl, hl⟩
  · intro v r s' h hnf
    obtain ⟨⟨r', t'⟩, ha, hb⟩ := except_map_ok _ _ _ h
    simp only [Prod.mk.injEq] at hb
    rw [hb.2]
    exact meta_access_noneFree ha hnf
  · intro r s' h
    obtain ⟨⟨r', t'⟩, ha, hb⟩ := except_map_ok _ _ _ h
    obtain ⟨ht, d, hd, hk⟩ := meta_access_read_ok ha
    simp only [Prod.mk.injEq] at hb
    obtain ⟨hr, hs⟩ := hb
    subst hr hs ht
    exact ⟨rfl, d, hd, hk⟩
  · intro d hd hk
    simp only [rxn_meta, meta_access_read_keyerror hd hk]
    rfl
  · intro v r s' h
    obtain ⟨⟨r', t'⟩, ha, hb⟩ := except_map_ok _ _ _ h
    obtain ⟨hr, hl⟩ := meta_access_write_ok ha
    simp only [Prod.mk.injEq] at hb
    obtain ⟨hb1, hb2⟩ := hb
    subst hb1 hb2 hr
    exact ⟨rfl, hl⟩
  · intro v r s' h hnf
    obtain ⟨⟨r', t'⟩, ha, hb⟩ := except_map_ok _ _ _ h
    simp only [Prod.mk.injEq] at hb
    rw [hb.2]
    exact meta_access_noneFree ha hnf

/-- C10 witness: on the store `sC10` (one molecule with metadata `{3: 7}`),
a `None`-valued call reads 7 and changes nothing; the write of 9 under key
4 stores 9 and keeps the table none-free; on `sC10r`, a read of an absent
operator key raises `KeyError` and a reaction read returns the stored 2. -/
theorem c10_meta_read_write_witness :
    (sC10 = sC10 ∧ ∃ d, sC10.mol_meta[0]? = some d ∧ alookup d 3 = some (some 7)) ∧
    ((none : PyVal) = none ∧
      alookup (sC10w.mol_meta.getD 0 []) 4 = some (some 9)) ∧
    noneFree sC10w.mol_meta ∧
    op_meta sC10r 0 5 none = .error "KeyError" ∧
    (sC10r = sC10r ∧
      ∃ d, sC10r.rxn_meta[0]? = some d ∧ alookup d 1 = some (some 2)) :=
  ⟨(c10_meta_read_write.1 sC10 0 3).1 (some 7) sC10 rfl,
   (c10_meta_read_write.1 sC10 0 4).2.2.1 9 none sC10w rfl,
   (c10_meta_read_write.1 sC10 0 4).2.2.2 (some 9) none sC10w rfl
      (by unfold noneFree; decide),
   (c10_meta_read_write.2.1 sC10r 0 5).2.1 [(1, some 2)] rfl rfl,
   (c10_meta_read_write.2.2 sC10r 0 1).1 (some 2) sC10r rfl⟩
